import Mathlib

/-!
Verification of the ComChemKit extraction/classification core
(`src/core/cck_qm_program.{h,cpp}`, `src/gaussian/gaussian_program.cpp`)
against its natural-language specification.

Shallow embedding conventions:
* C++ `double` is modelled by `Dbl`: NaN, signed infinity, or a finite
  value carried as an exact rational.  IEEE comparison semantics
  (every comparison with NaN is false) are made explicit in `dlt`/`dle`.
* A file on disk is modelled as `Option String`: `none` is an unreadable
  file (`std::ifstream::is_open()` false, `parse_output_file` throws),
  `some content` is a readable file with the given full content.
* `std::regex_search` against the literal-alternation status patterns
  (`NORMAL_TERMINATION`, `ERROR_PATTERN`, `PCM_ERROR`) and
  `std::string::find` are modelled by the substring test `strContains`.
* A compiled capture pattern (`std::regex` with one capturing group) is
  modelled as a function `String → Option String` returning the first
  match's captured group, the regex engine itself being abstracted;
  theorems quantify over it.
* `std::stod` is modelled by `stod` on the decimal grammar
  (whitespace, sign, digits, fraction, exponent); the hexadecimal and
  named-constant (`inf`, `nan`) forms, and overflow, are omitted, and the
  result is exact.  `none` models `std::invalid_argument` being thrown.
-/

namespace CCK

/-- Model of a C++ `double`: NaN, an infinity (`negative = true` for `-inf`),
or a finite value represented exactly. -/
inductive Dbl where
  | nan : Dbl
  | inf (negative : Bool) : Dbl
  | fin (v : ℚ) : Dbl
deriving DecidableEq

/-- IEEE `<` on doubles: any comparison involving NaN is false. -/
def dlt : Dbl → Dbl → Bool
  | .nan, _ => false
  | _, .nan => false
  | .inf true, .inf true => false
  | .inf true, _ => true
  | _, .inf true => false
  | .inf false, _ => false
  | _, .inf false => true
  | .fin a, .fin b => decide (a < b)

/-- IEEE `>` on doubles. -/
def dgt (a b : Dbl) : Bool := dlt b a

/-- IEEE `≤` on doubles: any comparison involving NaN is false. -/
def dle : Dbl → Dbl → Bool
  | .nan, _ => false
  | _, .nan => false
  | .inf true, _ => true
  | _, .inf true => false
  | _, .inf false => true
  | .inf false, _ => false
  | .fin a, .fin b => decide (a ≤ b)

/-- Model of `std::isnan`. -/
def isnan : Dbl → Bool
  | .nan => true
  | _ => false

/-- Model of `std::isinf`. -/
def isinf : Dbl → Bool
  | .inf _ => true
  | _ => false

/-- Model of `struct EnergyComponents` from `cck_qm_program.h`, default-initialised
exactly as in the header. -/
structure EnergyComponents where
  electronic_energy : Dbl := .fin 0
  zero_point_energy : Dbl := .fin 0
  thermal_correction : Dbl := .fin 0
  enthalpy_correction : Dbl := .fin 0
  gibbs_correction : Dbl := .fin 0
  entropy : Dbl := .fin 0
  nuclear_repulsion : Dbl := .fin 0
  frequencies : List Dbl := []
  has_imaginary_freq : Bool := false
  dispersion_correction : Option Dbl := none
  solvation_energy : Option Dbl := none
  counterpoise_correction : Option Dbl := none
deriving DecidableEq

/-- Model of `enum class JobStatus` from `cck_qm_program.h`. -/
inductive JobStatus where
  | UNKNOWN
  | COMPLETED
  | ERROR
  | RUNNING
  | INTERRUPTED
deriving DecidableEq

/-- Model of `struct CalculationMetadata` from `cck_qm_program.h` with its field
defaults (`temperature = 298.15`, `pressure = 1.0`, `status = UNKNOWN`). -/
structure CalculationMetadata where
  program_version : String := ""
  method : String := ""
  basis_set : String := ""
  keywords : List String := []
  solvent : Option String := none
  temperature : Dbl := .fin (mkRat 29815 100)
  pressure : Dbl := .fin 1
  file_path : String := ""
  status : JobStatus := .UNKNOWN
deriving DecidableEq

/-- Whether `needle` occurs at the start of `hay`. -/
def startsWithChars : List Char → List Char → Bool
  | [], _ => true
  | _ :: _, [] => false
  | c :: cs, d :: ds => (c == d) && startsWithChars cs ds

/-- Whether `needle` occurs anywhere in `hay`. -/
def occursIn (needle : List Char) : List Char → Bool
  | [] => needle.isEmpty
  | c :: rest => startsWithChars needle (c :: rest) || occursIn needle rest

/-- Model of `hay.find(pat) != std::string::npos`; also `std::regex_search` for a
single literal pattern. -/
def strContains (hay pat : String) : Bool := occursIn pat.toList hay.toList

/-- The five literal alternatives of the static `ERROR_PATTERN` regex. -/
def errorMarkers : List String :=
  ["Error termination", "Fatal Error", "Erroneous write", "File lengths",
   "Error in internal coordinate system"]

/-- The three literal alternatives of the static `PCM_ERROR` regex. -/
def pcmMarkers : List String :=
  ["Convergence failure -- run terminated", "PCM cycles did not converge",
   "PCM optimization failed"]

/-- Model of `std::regex_search(content, NORMAL_TERMINATION)`. -/
def hasNormalTermination (content : String) : Bool :=
  strContains content "Normal termination of Gaussian"

/-- Model of `std::regex_search(content, ERROR_PATTERN)`: some alternative occurs. -/
def hasErrorMarker (content : String) : Bool :=
  errorMarkers.any (strContains content)

/-- Model of `std::regex_search(content, PCM_ERROR)`: some alternative occurs. -/
def hasPcmMarker (content : String) : Bool :=
  pcmMarkers.any (strContains content)

/-- Model of `GaussianProgram::check_job_status`: on read failure
(`parse_output_file` throws) return UNKNOWN; else normal termination
first, then error markers, then PCM markers, else INTERRUPTED. -/
def check_job_status (file : Option String) : JobStatus :=
  match file with
  | none => .UNKNOWN
  | some content =>
    if hasNormalTermination content then .COMPLETED
    else if hasErrorMarker content then .ERROR
    else if hasPcmMarker content then .ERROR
    else .INTERRUPTED

/-- Numeric value of a digit string (most significant first). -/
def digitsVal (ds : List Char) : ℕ :=
  ds.foldl (fun a c => 10 * a + (c.toNat - 48)) 0

/-- Exponent part of `std::stod`'s decimal grammar: `[eE][+-]?digits`,
contributing 0 when absent or malformed (`strtod` backs off on an
incomplete exponent). -/
def stodExponent (cs : List Char) : ℤ :=
  match cs with
  | e :: rest =>
    if e == 'e' || e == 'E' then
      match rest with
      | '-' :: r => if (r.takeWhile Char.isDigit).isEmpty then 0
                    else -(digitsVal (r.takeWhile Char.isDigit) : ℤ)
      | '+' :: r => if (r.takeWhile Char.isDigit).isEmpty then 0
                    else (digitsVal (r.takeWhile Char.isDigit) : ℤ)
      | r => if (r.takeWhile Char.isDigit).isEmpty then 0
             else (digitsVal (r.takeWhile Char.isDigit) : ℤ)
    else 0
  | [] => 0

/-- Model of `std::stod` on the decimal grammar: skip whitespace, optional
sign, digits with optional fraction, optional exponent; trailing characters
are ignored.  `none` models `std::invalid_argument` being thrown (no digit
before or after the decimal point).  The value
sign · (intDigits.fracDigits) · 10^exponent is assembled as a single exact
rational. -/
def stod (s : String) : Option ℚ :=
  let cs := s.toList.dropWhile Char.isWhitespace
  let signAndRest : Bool × List Char :=
    match cs with
    | '-' :: rest => (true, rest)
    | '+' :: rest => (false, rest)
    | _ => (false, cs)
  let intDigits := signAndRest.2.takeWhile Char.isDigit
  let afterInt := signAndRest.2.dropWhile Char.isDigit
  let fracAndRest : List Char × List Char :=
    match afterInt with
    | '.' :: rest => (rest.takeWhile Char.isDigit, rest.dropWhile Char.isDigit)
    | _ => ([], afterInt)
  if intDigits.isEmpty && fracAndRest.1.isEmpty then none
  else
    let mag : ℕ :=
      digitsVal intDigits * 10 ^ fracAndRest.1.length + digitsVal fracAndRest.1
    let sgn : ℤ := if signAndRest.1 then -1 else 1
    let expo : ℤ := stodExponent fracAndRest.2
    if 0 ≤ expo then
      some (mkRat (sgn * mag * ((10 ^ expo.toNat : ℕ) : ℤ))
        (10 ^ fracAndRest.1.length))
    else
      some (mkRat (sgn * mag)
        (10 ^ fracAndRest.1.length * 10 ^ (-expo).toNat))

/-- A compiled `std::regex` with one capturing group, abstracted as the
function returning the first match's captured group (group 1). -/
def CapturePattern : Type := String → Option String

/-- Model of `GaussianProgram::extract_energy_value`: search for the pattern, parse
the captured group with `std::stod`, return the default when the pattern
does not match or parsing throws; total (never propagates an exception). -/
def extract_energy_value (content : String) (pattern : CapturePattern)
    (default_value : ℚ) : ℚ :=
  match pattern content with
  | some captured =>
    match stod captured with
    | some v => v
    | none => default_value
  | none => default_value

/-- Model of `GaussianProgram::validate_results`, clause for clause: electronic
energy in range, zero-point energy not negative, electronic energy neither
NaN nor infinite. -/
def validate_results (energies : EnergyComponents) : Bool :=
  if dgt energies.electronic_energy (.fin 0)
      || dlt energies.electronic_energy (.fin (-10000)) then false
  else if dlt energies.zero_point_energy (.fin 0) then false
  else if isnan energies.electronic_energy
      || isinf energies.electronic_energy then false
  else true

/-- Failure kinds of `extract_energies` (all surfaced in C++ as a
`std::runtime_error` whose message distinguishes them). -/
inductive ExtractError where
  | readFailure
  | stodFailure
  | validationFailure
deriving DecidableEq

/-- The static capture patterns used by `extract_energies`
(`SCF_ENERGY`, `ZPE`, `THERMAL_CORRECTION`), and the `FREQUENCIES`
iteration returning every matched capture group in file order; the regex
engine is abstracted, so theorems quantify over this structure. -/
structure PatternLib where
  scf_energy : CapturePattern
  zpe : CapturePattern
  thermal : CapturePattern
  freq_groups : String → List String

/-- Body of `GaussianProgram::extract_energies` before validation:
the three `extract_energy_value` calls (each defaulting to 0.0) and the
frequency loop, whose `std::stod` is not guarded and therefore aborts the
whole extraction when a captured group fails to parse. -/
def extract_components (pl : PatternLib) (content : String) :
    Except ExtractError EnergyComponents :=
  let e := extract_energy_value content pl.scf_energy 0
  let z := extract_energy_value content pl.zpe 0
  let t := extract_energy_value content pl.thermal 0
  match (pl.freq_groups content).mapM stod with
  | none => .error .stodFailure
  | some fs =>
    .ok { electronic_energy := .fin e
          zero_point_energy := .fin z
          thermal_correction := .fin t
          frequencies := fs.map .fin
          has_imaginary_freq := fs.any (fun q => decide (q < 0)) }

/-- Model of `GaussianProgram::extract_energies`: read the file (throwing on an
unreadable source), extract the components, then fail with a validation
error unless `validate_results` accepts them. -/
def extract_energies (pl : PatternLib) (file : Option String) :
    Except ExtractError EnergyComponents :=
  match file with
  | none => .error .readFailure
  | some content =>
    match extract_components pl content with
    | .error err => .error err
    | .ok components =>
      if validate_results components then .ok components
      else .error .validationFailure

/-- Model of `GaussianProgram::calculate_high_level_energy`: extract both files,
start from the low-level components and overwrite only the electronic
energy with the high-level one; no further validation. -/
def calculate_high_level_energy (pl : PatternLib)
    (low_level high_level : Option String) :
    Except ExtractError EnergyComponents :=
  match extract_energies pl low_level with
  | .error err => .error err
  | .ok low =>
    match extract_energies pl high_level with
    | .error err => .error err
    | .ok high => .ok { low with electronic_energy := high.electronic_energy }

/-- Model of `GaussianProgram::get_dispersion_type`: `std::string::find` checks in
source order (D3 family first, then D2, then D3BJ), `nullopt` on an
unreadable file or when nothing matches. -/
def get_dispersion_type (file : Option String) : Option String :=
  match file with
  | none => none
  | some content =>
    if strContains content "GD3" || strContains content "D3" then some "D3"
    else if strContains content "GD2" || strContains content "D2" then some "D2"
    else if strContains content "GD3BJ" || strContains content "D3BJ" then
      some "D3BJ"
    else none

/-- The capture patterns used by `get_metadata` and
`parse_route_section` (`version_regex` with its two groups, `route_regex`,
`method_regex`, `basis_regex`); the regex engine is abstracted as pure
total functions (these searches cannot throw), so theorems quantify over
this structure. -/
structure MetadataPatterns where
  version_groups : String → Option (String × String)
  route_match : String → Option String
  method_match : String → Option String
  basis_match : String → Option String

/-- Model of `GaussianProgram::parse_route_section`: locate the route section, then
look up method and basis labels inside it; a missing section or label
yields no entry. -/
def parse_route_section (mp : MetadataPatterns) (content : String) :
    Option String × Option String :=
  match mp.route_match content with
  | some route_section =>
    (mp.method_match route_section, mp.basis_match route_section)
  | none => (none, none)

/-- Model of `GaussianProgram::get_metadata`: `file_path` is set first; an
exception while reading the source is caught and downgrades only the
status to ERROR; otherwise version/method/basis are filled (empty when
absent) and the status is `check_job_status` on the same source.  In the
C++ the classifier re-reads the file; the model supplies the same content
to both reads. -/
def get_metadata (mp : MetadataPatterns) (filepath : String)
    (file : Option String) : CalculationMetadata :=
  match file with
  | none => { file_path := filepath, status := .ERROR }
  | some content =>
    let version : String :=
      match mp.version_groups content with
      | some groups => "Gaussian " ++ groups.1 ++ " " ++ groups.2
      | none => ""
    let route := parse_route_section mp content
    { file_path := filepath
      program_version := version
      method := route.1.getD ""
      basis_set := route.2.getD ""
      status := check_job_status (some content) }

/-- Model of `std::tolower` in the C locale: lowercase ASCII letters only. -/
def asciiToLower (c : Char) : Char :=
  if 'A' ≤ c && c ≤ 'Z' then Char.ofNat (c.toNat + 32) else c

/-- Model of `normalize_program_name` from `cck_qm_program.cpp`: lowercase every
character. -/
def normalize_program_name (name : String) : String :=
  String.mk (name.toList.map asciiToLower)

/-- The anonymous-namespace `program_registry`
(`std::unordered_map<std::string, factory>`), modelled as an association
list with unique keys; a factory is a zero-argument constructor. -/
def Registry (β : Type) : Type := List (String × (Unit → β))

/-- Model of `program_registry.find(key)`. -/
def registryFind {β : Type} (reg : Registry β) (key : String) :
    Option (Unit → β) :=
  (reg.find? (fun entry => entry.1 == key)).map Prod.snd

/-- Model of `register_qm_program`: `program_registry[normalize_program_name(name)]
= factory` — inserts under the normalized key, overwriting any previous
entry for that key. -/
def register_qm_program {β : Type} (reg : Registry β) (name : String)
    (factory : Unit → β) : Registry β :=
  (normalize_program_name name, factory) ::
    reg.filter (fun entry => entry.1 != normalize_program_name name)

/-- Failure kind of `create_qm_program` (a `std::runtime_error` in C++,
whose message carries the caller-supplied name). -/
inductive CreateError where
  | unsupportedProgram (program_name : String)
deriving DecidableEq

/-- Model of `create_qm_program`: normalize the queried name, look it up, throw
with the original (non-normalized) name on a miss, otherwise invoke the
stored factory. -/
def create_qm_program {β : Type} (reg : Registry β) (program_name : String) :
    Except CreateError β :=
  match registryFind reg (normalize_program_name program_name) with
  | none => .error (.unsupportedProgram program_name)
  | some factory => .ok (factory ())

/-- Characterization of `validate_results`: it accepts exactly when all
five rejection conditions are false. -/
theorem validate_results_true_iff (c : EnergyComponents) :
    validate_results c = true ↔
      (dgt c.electronic_energy (.fin 0) = false ∧
       dlt c.electronic_energy (.fin (-10000)) = false ∧
       dlt c.zero_point_energy (.fin 0) = false ∧
       isnan c.electronic_energy = false ∧
       isinf c.electronic_energy = false) := by
  unfold validate_results
  cases h1 : dgt c.electronic_energy (.fin 0) <;>
    cases h2 : dlt c.electronic_energy (.fin (-10000)) <;>
      cases h3 : dlt c.zero_point_energy (.fin 0) <;>
        cases h4 : isnan c.electronic_energy <;>
          cases h5 : isinf c.electronic_energy <;> simp

/-- A double squeezed between two finite bounds under IEEE `≤` is finite
and lies between them. -/
theorem dle_fin_bounds {x : Dbl} {lo hi : ℚ} (hlo : dle (.fin lo) x = true)
    (hhi : dle x (.fin hi) = true) : ∃ v, x = .fin v ∧ lo ≤ v ∧ v ≤ hi := by
  cases x with
  | nan => simp [dle] at hlo
  | inf b => cases b <;> simp [dle] at hlo hhi
  | fin v =>
    refine ⟨v, rfl, ?_, ?_⟩
    · simpa [dle] using hlo
    · simpa [dle] using hhi

/-- IEEE `≤` from a finite bound rules out IEEE `<` in the other
direction. -/
theorem dlt_eq_false_of_dle {z : Dbl} {q : ℚ} (h : dle (.fin q) z = true) :
    dlt z (.fin q) = false := by
  cases z with
  | nan => simp [dlt]
  | inf b =>
    cases b
    · simp [dlt]
    · simp [dle] at h
  | fin v =>
    simp only [dle, decide_eq_true_eq] at h
    simp only [dlt, decide_eq_false_iff_not]
    exact not_lt.mpr h

/-- Claim C1: an extracted `EnergyComponents` with electronic energy above
0 or below −10000, a negative zero-point energy, or a NaN/infinite
electronic energy is rejected by the validator, so `extract_energies`
fails with the validation error instead of returning it; conversely,
components with electronic energy in [−10000, 0] and non-negative
zero-point energy pass validation and are returned. -/
theorem extract_energies_validation_policy :
    (∀ c : EnergyComponents,
      ((dgt c.electronic_energy (.fin 0) = true ∨
        dlt c.electronic_energy (.fin (-10000)) = true ∨
        dlt c.zero_point_energy (.fin 0) = true ∨
        isnan c.electronic_energy = true ∨
        isinf c.electronic_energy = true) →
        validate_results c = false) ∧
      ((dle (.fin (-10000)) c.electronic_energy = true ∧
        dle c.electronic_energy (.fin 0) = true ∧
        dle (.fin 0) c.zero_point_energy = true) →
        validate_results c = true)) ∧
    (∀ (pl : PatternLib) (content : String) (c : EnergyComponents),
      extract_components pl content = .ok c →
      (validate_results c = false →
        extract_energies pl (some content) = .error .validationFailure) ∧
      (validate_results c = true →
        extract_energies pl (some content) = .ok c)) := by
  constructor
  · intro c
    constructor
    · intro h
      cases hv : validate_results c
      · rfl
      · have h5 := (validate_results_true_iff c).mp hv
        rcases h with h | h | h | h | h <;> simp_all
    · rintro ⟨hlo, hhi, hz⟩
      rw [validate_results_true_iff]
      obtain ⟨v, hx, hvlo, hvhi⟩ := dle_fin_bounds hlo hhi
      refine ⟨?_, ?_, dlt_eq_false_of_dle hz, ?_, ?_⟩
      · rw [hx]
        simp only [dgt, dlt, decide_eq_false_iff_not]
        exact not_lt.mpr hvhi
      · rw [hx]
        simp only [dlt, decide_eq_false_iff_not]
        exact not_lt.mpr hvlo
      · rw [hx]; rfl
      · rw [hx]; rfl
  · intro pl content c hc
    constructor <;> intro hval <;> simp [extract_energies, hc, hval]

/-- Concrete pattern library whose searches find nothing, for witnesses. -/
def plTriv : PatternLib :=
  ⟨fun _ => none, fun _ => none, fun _ => none, fun _ => []⟩

/-- Witness for C1: a positive electronic energy is rejected, an in-range
one is accepted, and the extraction pipeline returns accepted
components. -/
theorem extract_energies_validation_policy_witness :
    validate_results { electronic_energy := Dbl.fin 5 } = false ∧
    validate_results
      { electronic_energy := Dbl.fin (-76), zero_point_energy := Dbl.fin 1 } = true ∧
    extract_energies plTriv (some "") = .ok {} :=
  ⟨(extract_energies_validation_policy.1 _).1 (Or.inl (by decide)),
   (extract_energies_validation_policy.1 _).2 ⟨by decide, by decide, by decide⟩,
   (extract_energies_validation_policy.2 plTriv "" {} rfl).2 (by decide)⟩

/-- Claim C2: any input containing both a normal-termination marker and an
error marker is classified COMPLETED, because the termination check runs
before the error checks. -/
theorem status_completed_has_priority (content : String)
    (hterm : hasNormalTermination content = true)
    (_herr : hasErrorMarker content = true) :
    check_job_status (some content) = .COMPLETED := by
  simp [check_job_status, hterm]

/-- Witness for C2 at a concrete input carrying both markers. -/
theorem status_completed_has_priority_witness :
    hasNormalTermination "Normal termination of Gaussian then Error termination" = true ∧
    hasErrorMarker "Normal termination of Gaussian then Error termination" = true ∧
    check_job_status (some "Normal termination of Gaussian then Error termination") = .COMPLETED :=
  ⟨by decide, by decide,
   status_completed_has_priority _ (by decide) (by decide)⟩

/-- Claim C3: a readable input with no recognized marker (the empty string
included) is INTERRUPTED, an unreadable input is UNKNOWN, and the two
results are distinct. -/
theorem status_interrupted_vs_unknown :
    (∀ content : String, hasNormalTermination content = false →
      hasErrorMarker content = false → hasPcmMarker content = false →
      check_job_status (some content) = .INTERRUPTED) ∧
    check_job_status none = .UNKNOWN ∧
    check_job_status (some "") = .INTERRUPTED ∧
    JobStatus.INTERRUPTED ≠ JobStatus.UNKNOWN := by
  refine ⟨?_, rfl, by decide, by decide⟩
  intro content h1 h2 h3
  simp [check_job_status, h1, h2, h3]

/-- Witness for C3 at a concrete marker-free input. -/
theorem status_interrupted_vs_unknown_witness :
    check_job_status (some "SCF Done but nothing conclusive") = .INTERRUPTED :=
  status_interrupted_vs_unknown.1 "SCF Done but nothing conclusive"
    (by decide) (by decide) (by decide)

/-- Claim C10: the classifier never returns RUNNING; every path yields
COMPLETED, ERROR, INTERRUPTED or UNKNOWN. -/
theorem check_job_status_never_running (file : Option String) :
    check_job_status file = .COMPLETED ∨ check_job_status file = .ERROR ∨
    check_job_status file = .INTERRUPTED ∨ check_job_status file = .UNKNOWN := by
  cases file with
  | none => simp [check_job_status]
  | some content =>
    simp only [check_job_status]
    split
    · exact Or.inl rfl
    · split
      · exact Or.inr (Or.inl rfl)
      · split
        · exact Or.inr (Or.inl rfl)
        · exact Or.inr (Or.inr (Or.inl rfl))

/-- Claim C5: the value-extraction primitive returns the parsed value of
the captured group when the pattern matches and the text parses, and the
default when the pattern does not match or parsing fails; it is a total
function, so no exception escapes. -/
theorem extract_energy_value_policy (pattern : CapturePattern)
    (content : String) (default_value : ℚ) :
    (pattern content = none →
      extract_energy_value content pattern default_value = default_value) ∧
    (∀ captured, pattern content = some captured → stod captured = none →
      extract_energy_value content pattern default_value = default_value) ∧
    (∀ captured v, pattern content = some captured → stod captured = some v →
      extract_energy_value content pattern default_value = v) := by
  refine ⟨?_, ?_, ?_⟩ <;> intros <;> simp [extract_energy_value, *]

/-- Witness for C5: a parsed match, a malformed match, and a miss. -/
theorem extract_energy_value_policy_witness :
    extract_energy_value "text" (fun _ => some "12.5") 7 = mkRat 25 2 ∧
    extract_energy_value "text" (fun _ => some "--") 7 = 7 ∧
    extract_energy_value "text" (fun _ => none) 7 = 7 :=
  ⟨(extract_energy_value_policy (fun _ => some "12.5") "text" 7).2.2
     "12.5" (mkRat 25 2) rfl (by decide),
   (extract_energy_value_policy (fun _ => some "--") "text" 7).2.1
     "--" rfl (by decide),
   (extract_energy_value_policy (fun _ => none) "text" 7).1 rfl⟩

/-- Claim C7: a lookup miss (after case normalization) fails with the
unsupported-program error carrying the original, non-normalized name. -/
theorem create_qm_program_unsupported (β : Type) (reg : Registry β)
    (program_name : String)
    (hmiss : registryFind reg (normalize_program_name program_name) = none) :
    create_qm_program reg program_name =
      .error (.unsupportedProgram program_name) := by
  simp [create_qm_program, hmiss]

/-- Witness for C7: the klingon-chem scenario against the empty registry. -/
theorem create_qm_program_unsupported_witness :
    create_qm_program ([] : Registry ℕ) "klingon-chem" =
      .error (.unsupportedProgram "klingon-chem") :=
  create_qm_program_unsupported ℕ [] "klingon-chem" rfl

/-- Claim C4: when both extractions succeed, the composed result is the
low-level components with only the electronic energy overwritten by the
high-level one; every other field equals the low-level field, and the
composition adds no validation of its own. -/
theorem composition_law (pl : PatternLib) (L H : Option String)
    (low high : EnergyComponents)
    (hl : extract_energies pl L = .ok low)
    (hh : extract_energies pl H = .ok high) :
    calculate_high_level_energy pl L H =
      .ok { low with electronic_energy := high.electronic_energy } ∧
    ∀ r, calculate_high_level_energy pl L H = .ok r →
      r.electronic_energy = high.electronic_energy ∧
      r.zero_point_energy = low.zero_point_energy ∧
      r.thermal_correction = low.thermal_correction ∧
      r.enthalpy_correction = low.enthalpy_correction ∧
      r.gibbs_correction = low.gibbs_correction ∧
      r.entropy = low.entropy ∧
      r.nuclear_repulsion = low.nuclear_repulsion ∧
      r.frequencies = low.frequencies ∧
      r.has_imaginary_freq = low.has_imaginary_freq ∧
      r.dispersion_correction = low.dispersion_correction ∧
      r.solvation_energy = low.solvation_energy ∧
      r.counterpoise_correction = low.counterpoise_correction := by
  have hcomp : calculate_high_level_energy pl L H =
      .ok { low with electronic_energy := high.electronic_energy } := by
    simp [calculate_high_level_energy, hl, hh]
  refine ⟨hcomp, ?_⟩
  intro r hr
  rw [hcomp] at hr
  injection hr with hr
  subst hr
  exact ⟨rfl, rfl, rfl, rfl, rfl, rfl, rfl, rfl, rfl, rfl, rfl, rfl⟩

/-- Concrete pattern library whose capture pattern returns the whole
content, for the composition witness. -/
def plEcho : PatternLib :=
  ⟨fun content => some content, fun _ => none, fun _ => none, fun _ => []⟩

/-- Low-level components extracted by `plEcho` from "-76.5". -/
def lowEcho : EnergyComponents := { electronic_energy := .fin (mkRat (-153) 2) }

/-- High-level components extracted by `plEcho` from "-80.25". -/
def highEcho : EnergyComponents := { electronic_energy := .fin (mkRat (-321) 4) }

/-- Witness for C4 on two concrete extractable files. -/
theorem composition_law_witness :
    calculate_high_level_energy plEcho (some "-76.5") (some "-80.25") =
      .ok { lowEcho with electronic_energy := highEcho.electronic_energy } :=
  (composition_law plEcho (some "-76.5") (some "-80.25") lowEcho highEcho
    rfl rfl).1

/-- Claim C6: after registration, creation succeeds for any casing of the
name (lookup normalizes the queried name to the stored, case-normalized
key) and returns the instance built by the registered factory;
re-registering the same name overwrites the factory (last write wins). -/
theorem registry_case_insensitive_last_wins (β : Type) (reg : Registry β)
    (name query : String) (f g : Unit → β)
    (hq : normalize_program_name query = normalize_program_name name) :
    create_qm_program (register_qm_program reg name f) query = .ok (f ()) ∧
    create_qm_program
      (register_qm_program (register_qm_program reg name f) name g) query =
        .ok (g ()) := by
  constructor <;>
    simp [create_qm_program, register_qm_program, registryFind, hq,
      List.find?]

/-- Witness for C6: register "Foo", create "foo" and (after an override)
"FOO". -/
theorem registry_case_insensitive_last_wins_witness :
    create_qm_program (register_qm_program ([] : Registry ℕ) "Foo"
      (fun _ => 7)) "foo" = .ok ((fun _ => 7) ()) ∧
    create_qm_program (register_qm_program (register_qm_program
      ([] : Registry ℕ) "Foo" (fun _ => 7)) "Foo" (fun _ => 9)) "FOO" =
        .ok ((fun _ => 9) ()) :=
  ⟨(registry_case_insensitive_last_wins ℕ [] "Foo" "foo"
      (fun _ => 7) (fun _ => 9) (by decide)).1,
   (registry_case_insensitive_last_wins ℕ [] "Foo" "FOO"
      (fun _ => 7) (fun _ => 9) (by decide)).2⟩

/-- Matching an appended needle at a position also matches its first
part. -/
theorem startsWithChars_append (xs ys l : List Char)
    (h : startsWithChars (xs ++ ys) l = true) : startsWithChars xs l = true := by
  induction xs generalizing l with
  | nil => rfl
  | cons c cs ih =>
    cases l with
    | nil => simp [startsWithChars] at h
    | cons d ds =>
      simp only [List.cons_append, startsWithChars, Bool.and_eq_true] at h ⊢
      exact ⟨h.1, ih ds h.2⟩

/-- An occurrence of an appended needle yields an occurrence of its first
part. -/
theorem occursIn_append (xs ys l : List Char)
    (h : occursIn (xs ++ ys) l = true) : occursIn xs l = true := by
  induction l with
  | nil =>
    simp only [occursIn, List.isEmpty_iff, List.append_eq_nil] at h
    simp [occursIn, h.1]
  | cons c rest ih =>
    simp only [occursIn, Bool.or_eq_true] at h ⊢
    rcases h with h | h
    · exact Or.inl (startsWithChars_append xs ys _ h)
    · exact Or.inr (ih h)

/-- A string containing `p ++ q` contains `p`. -/
theorem strContains_append (hay p q : String)
    (h : strContains hay (p ++ q) = true) : strContains hay p = true := by
  unfold strContains at h ⊢
  have hsplit : (p ++ q).toList = p.toList ++ q.toList := by
    simp [String.toList]
  rw [hsplit] at h
  exact occursIn_append _ _ _ h

/-- Claim C8 (code bug): the source checks "D3" before "D3BJ", and "D3" is
a substring of "D3BJ", so an input containing the combined label "D3BJ" is
reported as "D3"; the "D3BJ" branch is unreachable on every input.
Unrecognized content still yields no label. -/
theorem get_dispersion_type_shadows_d3bj :
    get_dispersion_type (some "Empirical dispersion D3BJ") = some "D3" ∧
    (∀ file : Option String,
      (get_dispersion_type file == some "D3BJ") = false) ∧
    get_dispersion_type (some "no such keywords") = none := by
  refine ⟨by decide, ?_, by decide⟩
  intro file
  cases file with
  | none => simp [get_dispersion_type]
  | some content =>
    simp only [get_dispersion_type]
    split
    · decide
    · split
      · decide
      · rename_i h1 h2
        split
        · rename_i h3
          exfalso
          simp only [Bool.or_eq_true, not_or, Bool.not_eq_true] at h1
          rw [Bool.or_eq_true] at h3
          rcases h3 with hg | hd
          · have hpre : strContains content "GD3" = true := by
              apply strContains_append content "GD3" "BJ"
              have heq : ("GD3" ++ "BJ" : String) = "GD3BJ" := by decide
              rw [heq]; exact hg
            rw [h1.1] at hpre
            exact Bool.false_ne_true hpre
          · have hpre : strContains content "D3" = true := by
              apply strContains_append content "D3" "BJ"
              have heq : ("D3" ++ "BJ" : String) = "D3BJ" := by decide
              rw [heq]; exact hd
            rw [h1.2] at hpre
            exact Bool.false_ne_true hpre
        · decide

/-- Concrete metadata patterns whose searches find nothing, for C9. -/
def mpTriv : MetadataPatterns :=
  ⟨fun _ => none, fun _ => none, fun _ => none, fun _ => none⟩

/-- Counterexample to claim C9 as stated: the readable input
"Error termination" yields metadata whose status is ERROR, because the
status field is the job-status classification, not merely a read-failure
flag. -/
theorem get_metadata_error_on_readable :
    (get_metadata mpTriv "job.log" (some "Error termination")).status =
      .ERROR := by
  decide

/-- Claim C9 (amended): `get_metadata` never fails on missing fields
(version/method/basis are left empty when their searches miss); its status
is the job-status classification of the content, so it is ERROR when the
read fails or when the content carries an error or PCM-failure marker; for
readable inputs with no such marker the status is not ERROR. -/
theorem get_metadata_status_policy (mp : MetadataPatterns)
    (filepath content : String) :
    (get_metadata mp filepath (some content)).status =
      check_job_status (some content) ∧
    (get_metadata mp filepath none).status = .ERROR ∧
    (mp.version_groups content = none → mp.route_match content = none →
      (get_metadata mp filepath (some content)).program_version = "" ∧
      (get_metadata mp filepath (some content)).method = "" ∧
      (get_metadata mp filepath (some content)).basis_set = "") ∧
    (hasErrorMarker content = false → hasPcmMarker content = false →
      (get_metadata mp filepath (some content)).status ≠ .ERROR) := by
  refine ⟨rfl, rfl, ?_, ?_⟩
  · intro hv hr
    refine ⟨?_, ?_, ?_⟩ <;> simp [get_metadata, parse_route_section, hv, hr]
  · intro h1 h2
    simp only [get_metadata, check_job_status]
    by_cases ht : hasNormalTermination content = true
    · simp [ht]
    · simp [ht, h1, h2]

/-- Witness for C9 (amended) at a concrete marker-free readable input. -/
theorem get_metadata_status_policy_witness :
    (get_metadata mpTriv "job.log" (some "clean output")).status ≠ .ERROR ∧
    (get_metadata mpTriv "job.log" (some "clean output")).method = "" :=
  ⟨(get_metadata_status_policy mpTriv "job.log" "clean output").2.2.2
     (by decide) (by decide),
   ((get_metadata_status_policy mpTriv "job.log" "clean output").2.2.1
     rfl rfl).2.1⟩

end CCK
